import Mathlib

/-!
Verification of the audio-routing core of `audio_setup.py` (music-recorder3000).

Ports are modelled as lists of characters (`Str`), the contents of the Python
strings handed around by `pw-link`.  Every definition below is a direct shallow
embedding of the corresponding Python function; the external audio server
(`pactl` / `pw-link` / `pw-cli`) is modelled by an explicit environment record,
and every command the code issues is recorded as an `Event` so that ordering
claims can be stated about traces.
-/

/-- Ports and patterns are character lists (the payload of a Python `str`). -/
abbrev Str := List Char

/-- Python `s.lower()` (ASCII, which is all the port names use). -/
def lowerStr (s : Str) : Str := s.map Char.toLower

/-- Python `s.upper()`. -/
def upperStr (s : Str) : Str := s.map Char.toUpper

/-- Python `needle in hay` on strings: `needle` occurs contiguously in `hay`.
An empty needle is contained in everything, as in Python. -/
def strContains (needle : Str) : Str → Bool
  | [] => needle.isEmpty
  | c :: rest => needle.isPrefixOf (c :: rest) || strContains needle rest

/-- Python `s.split(sep)[-1]`: the characters after the last occurrence of
`sep` (the whole string when `sep` does not occur). -/
def afterLast (sep : Char) (s : Str) : Str :=
  s.foldl (fun acc c => if c = sep then [] else acc ++ [c]) []

/-- Python `s.endswith(post)`. -/
def strEndsWith (s post : Str) : Bool := post.isSuffixOf s

/-- The channel tag of a port, per `connect_source_to_sink` /
`connect_to_virtual_sink` / `_connect_source_to_output`:
`port.split(":")[-1].upper() if ":" in port else ""`. -/
def chanTag (port : Str) : Str :=
  if (':' ∈ port) then upperStr (afterLast ':' port) else []

/-- Embeds `src_ch.endswith("_MONO") or src_ch == "MONO"` (the mono test of the
connect functions, deliberately a suffix match so that `MONITOR` is not
classified mono). -/
def chMono (ch : Str) : Bool :=
  strEndsWith ch "_MONO".data || ch == "MONO".data

/-- Embeds `ch.endswith("_FL") or ch.endswith("_L")`. -/
def chLeft (ch : Str) : Bool :=
  strEndsWith ch "_FL".data || strEndsWith ch "_L".data

/-- Embeds `ch.endswith("_FR") or ch.endswith("_R")`. -/
def chRight (ch : Str) : Bool :=
  strEndsWith ch "_FR".data || strEndsWith ch "_R".data

/-- The per-pair connect decision of `AudioSetup.connect_source_to_sink`
(also the decision of `_connect_source_to_output`, whose body is identical):
mono on either side, or matching stereo channels. -/
def shouldConnectSourceToSink (src dst : Str) : Bool :=
  let s := chanTag src
  let d := chanTag dst
  chMono s || chMono d || (chLeft s && chLeft d) || (chRight s && chRight d)

/-- The per-pair connect decision of `AudioSetup.connect_to_virtual_sink`:
note it tests mono only on the output side. -/
def shouldConnectToVirtualSink (outp inp : Str) : Bool :=
  let o := chanTag outp
  let i := chanTag inp
  chMono o || (chLeft o && chLeft i) || (chRight o && chRight i)

/-- The tag extraction of `AudioSetup.connect_virtual_sink_to_output`:
`port.split("_")[-1] if "_" in port else ""` (whole port, no uppercasing). -/
def underscoreTag (port : Str) : Str :=
  if ('_' ∈ port) then afterLast '_' port else []

/-- The per-pair connect decision of `AudioSetup.connect_virtual_sink_to_output`:
connect iff the after-last-underscore tags are equal. -/
def shouldConnectVirtualSinkToOutput (outp inp : Str) : Bool :=
  underscoreTag outp == underscoreTag inp

/-- Spec-side channel classification (§4.2 of the spec): every channel tag is
Mono, Left, Right, or Other. -/
inductive Chan : Type
  | mono : Chan
  | left : Chan
  | right : Chan
  | other : Chan
deriving DecidableEq

/-- Modelled from the spec's words (§4.2): classify a channel tag as Mono
(exactly `MONO` or underscore-delimited suffix `_MONO`), Left, Right, or
Other.  The classification is well defined because the four suffix families
are mutually exclusive (shown below). -/
def classifyChan (ch : Str) : Chan :=
  if chMono ch then .mono
  else if chLeft ch then .left
  else if chRight ch then .right
  else .other

/-- The connection rule exactly as the spec states it (§4.2): connect iff the
output is Mono, or the input is Mono, or both are Left, or both are Right. -/
def specConnectRule (outp inp : Str) : Bool :=
  let o := classifyChan (chanTag outp)
  let i := classifyChan (chanTag inp)
  o == .mono || i == .mono || (o == .left && i == .left) ||
    (o == .right && i == .right)

/-! ### Suffix reasoning: the last character separates the tag families. -/

theorem isSuffixOf_eq_true_iff {l₁ l₂ : List Char} :
    l₁.isSuffixOf l₂ = true ↔ l₁ <:+ l₂ := by
  unfold List.isSuffixOf
  rw [List.isPrefixOf_iff_prefix, List.reverse_prefix]

theorem getLast?_of_suffix {l₁ l₂ : List Char} (h : l₁ <:+ l₂) (hne : l₁ ≠ []) :
    l₂.getLast? = l₁.getLast? := by
  obtain ⟨t, rfl⟩ := h
  rw [List.getLast?_append]
  cases hl : l₁.getLast? with
  | none => exact absurd (List.getLast?_eq_none_iff.mp hl) hne
  | some c => rfl

theorem chMono_getLast {ch : Str} (h : chMono ch = true) :
    ch.getLast? = some 'O' := by
  rcases Bool.or_eq_true_iff.mp h with h1 | h2
  · have hs := isSuffixOf_eq_true_iff.mp h1
    rw [getLast?_of_suffix hs (by decide)]
    rfl
  · rw [show ch = "MONO".data from by simpa using h2]
    rfl

theorem chLeft_getLast {ch : Str} (h : chLeft ch = true) :
    ch.getLast? = some 'L' := by
  rcases Bool.or_eq_true_iff.mp h with h1 | h1 <;>
  · have hs := isSuffixOf_eq_true_iff.mp h1
    rw [getLast?_of_suffix hs (by decide)]
    rfl

theorem chRight_getLast {ch : Str} (h : chRight ch = true) :
    ch.getLast? = some 'R' := by
  rcases Bool.or_eq_true_iff.mp h with h1 | h1 <;>
  · have hs := isSuffixOf_eq_true_iff.mp h1
    rw [getLast?_of_suffix hs (by decide)]
    rfl

theorem chMono_chLeft_exclusive {ch : Str} :
    ¬(chMono ch = true ∧ chLeft ch = true) := by
  rintro ⟨hm, hl⟩
  have := (chMono_getLast hm).symm.trans (chLeft_getLast hl)
  simp at this

theorem chMono_chRight_exclusive {ch : Str} :
    ¬(chMono ch = true ∧ chRight ch = true) := by
  rintro ⟨hm, hr⟩
  have := (chMono_getLast hm).symm.trans (chRight_getLast hr)
  simp at this

theorem chLeft_chRight_exclusive {ch : Str} :
    ¬(chLeft ch = true ∧ chRight ch = true) := by
  rintro ⟨hl, hr⟩
  have := (chLeft_getLast hl).symm.trans (chRight_getLast hr)
  simp at this

theorem classifyChan_eq_mono_iff {ch : Str} :
    classifyChan ch = .mono ↔ chMono ch = true := by
  unfold classifyChan
  cases hm : chMono ch
  · cases hl : chLeft ch
    · cases hr : chRight ch <;> simp
    · simp
  · simp

theorem classifyChan_eq_left_iff {ch : Str} :
    classifyChan ch = .left ↔ chLeft ch = true := by
  unfold classifyChan
  cases hm : chMono ch
  · cases hl : chLeft ch
    · cases hr : chRight ch <;> simp
    · simp
  · have hl : chLeft ch = false := by
      cases hl : chLeft ch
      · rfl
      · exact absurd ⟨hm, hl⟩ chMono_chLeft_exclusive
    simp [hl]

theorem classifyChan_eq_right_iff {ch : Str} :
    classifyChan ch = .right ↔ chRight ch = true := by
  unfold classifyChan
  cases hm : chMono ch
  · cases hl : chLeft ch
    · cases hr : chRight ch <;> simp
    · have hr : chRight ch = false := by
        cases hr : chRight ch
        · rfl
        · exact absurd ⟨hl, hr⟩ chLeft_chRight_exclusive
      simp [hr]
  · have hr : chRight ch = false := by
      cases hr : chRight ch
      · rfl
      · exact absurd ⟨hm, hr⟩ chMono_chRight_exclusive
    simp [hr]

/-! ### The stateful model: `AudioSetup`'s fields, the server environment,
and the commands issued. -/

/-- A ledgered link: (output port, input port). -/
abbrev Link := Str × Str

/-- Commands the code issues to the audio server / external processes. -/
inductive Event : Type
  | setSourceVolume (source : Str) (vol : Int)
  | setSinkVolume (sink : Str) (vol : Int)
  | pwLink (outPort inPort : Str)
  | pwUnlink (outPort inPort : Str)
  | unloadModule (moduleId : Nat)
  | stopScrcpy
deriving DecidableEq

/-- Whether `e` is a volume-set command (`pactl set-source-volume` or `set-sink-volume`). -/
def Event.isVolumeSet : Event → Bool
  | .setSourceVolume _ _ => true
  | .setSinkVolume _ _ => true
  | _ => false

/-- Whether `e` is a `pw-link -d` disconnect command. -/
def Event.isUnlink : Event → Bool
  | .pwUnlink _ _ => true
  | _ => false

/-- The mutable fields of an `AudioSetup` instance that the claims concern. -/
structure AudioState where
  created_links : List Link
  monitor_links : List Link
  managed_sources : List Str
  virtual_sink_name : Option Str
  monitor_sink_name : Option Str
  default_sink : Option Str
  monitoring_enabled : Bool
  virtual_sink_id : Option Nat
  monitor_sink_id : Option Nat
  scrcpy_running : Bool
deriving DecidableEq

/-- The audio server as the connect functions see it: the `pw-link -o` and
`pw-link -i` listings, and the success verdict of `pw-link out in`. -/
structure Env where
  outPorts : List Str
  inPorts : List Str
  linkOk : Str → Str → Bool

/-- Python truthiness of an optional string (`None` and `""` are falsy). -/
def truthy : Option Str → Bool
  | none => false
  | some s => !s.isEmpty

/-! ### Fade arithmetic. -/

/-- Python `int(...)` applied to the exact value `p / q` (`q > 0`):
truncation toward zero. -/
def pyTruncDiv (p : Int) (q : Nat) : Int :=
  if 0 ≤ p then ((p.toNat / q : Nat) : Int) else -(((-p).toNat / q : Nat) : Int)

/-- The volume the fade loops set at step `k` of `n`:
`int(start + (end - start) * (k / n))` in exact arithmetic. -/
def fadeVolume (start stop : Int) (k n : Nat) : Int :=
  pyTruncDiv (start * n + (stop - start) * k) n

/-- The constant `FADE_STEPS` from the source. -/
def FADE_STEPS : Nat := 20

/-- The step count `_fade_sink_only` computes at the default
`FADE_DURATION = 0.5`: `max(1, int(0.5 / 0.025))`; the float quotient is
exactly `20.0`, so this is `20`. -/
def SINK_FADE_STEPS : Nat := 20

/-- The event trace of `_fade_sink_only(sink_name, start, end)`: one
`set-sink-volume` per step `0..steps`. -/
def fade_sink_only (sink : Str) (start stop : Int) (steps : Nat) : List Event :=
  (List.range (steps + 1)).map fun k =>
    .setSinkVolume sink (fadeVolume start stop k steps)

/-- One step of `fade_in` / `fade_out`: set every managed source, then the
virtual sink when its name is truthy. -/
def fadeStepEvents (st : AudioState) (vol : Int) : List Event :=
  (st.managed_sources.map fun s => .setSourceVolume s vol) ++
    (if truthy st.virtual_sink_name then
      [.setSinkVolume (st.virtual_sink_name.getD []) vol]
    else [])

/-- Embeds `AudioSetup.fade_in`: steps `0..FADE_STEPS` ascending,
volume `int((step / FADE_STEPS) * 100)`. -/
def fade_in (st : AudioState) : List Event :=
  (List.range (FADE_STEPS + 1)).flatMap fun k =>
    fadeStepEvents st (fadeVolume 0 100 k FADE_STEPS)

/-- Embeds `AudioSetup.fade_out`: steps `FADE_STEPS..0` descending. -/
def fade_out (st : AudioState) : List Event :=
  (List.range (FADE_STEPS + 1)).flatMap fun j =>
    fadeStepEvents st (fadeVolume 0 100 (FADE_STEPS - j) FADE_STEPS)

/-! ### Linking. -/

/-- Embeds `AudioSetup.link_ports`: issue `pw-link out in` once; on success append
the pair to the general ledger and, when `is_monitor_link`, also to the
monitor-tagged list. -/
def link_ports (env : Env) (st : AudioState) (outPort inPort : Str)
    (is_monitor_link : Bool) : AudioState × List Event × Bool :=
  if env.linkOk outPort inPort then
    ({ st with
        created_links := st.created_links ++ [(outPort, inPort)]
        monitor_links :=
          if is_monitor_link then st.monitor_links ++ [(outPort, inPort)]
          else st.monitor_links },
      [.pwLink outPort inPort], true)
  else (st, [.pwLink outPort inPort], false)

/-- The inner loop of `connect_source_to_sink`: one source port against every
sink port. -/
def connectPairsInner (env : Env) (src : Str) :
    List Str → AudioState → AudioState × List Event × Bool
  | [], st => (st, [], false)
  | dst :: rest, st =>
    if shouldConnectSourceToSink src dst then
      let r1 := link_ports env st src dst false
      let r2 := connectPairsInner env src rest r1.1
      (r2.1, r1.2.1 ++ r2.2.1, r1.2.2 || r2.2.2)
    else connectPairsInner env src rest st

/-- The outer loop of `connect_source_to_sink`. -/
def connectPairsOuter (env : Env) (dsts : List Str) :
    List Str → AudioState → AudioState × List Event × Bool
  | [], st => (st, [], false)
  | src :: rest, st =>
    let r1 := connectPairsInner env src dsts st
    let r2 := connectPairsOuter env dsts rest r1.1
    (r2.1, r1.2.1 ++ r2.2.1, r1.2.2 || r2.2.2)

/-- Embeds `AudioSetup.connect_source_to_sink`: filter the port listings by the
case-insensitive substring patterns, fail on an empty side, else try every
pair through the channel-matching rule. -/
def connect_source_to_sink (env : Env) (st : AudioState)
    (source_pattern sink_pattern : Str) : AudioState × List Event × Bool :=
  let source_ports := env.outPorts.filter fun p =>
    strContains (lowerStr source_pattern) (lowerStr p)
  let sink_ports := env.inPorts.filter fun p =>
    strContains (lowerStr sink_pattern) (lowerStr p)
  if source_ports.isEmpty then (st, [], false)
  else if sink_ports.isEmpty then (st, [], false)
  else connectPairsOuter env sink_ports source_ports st

/-! ### Monitoring state machine. -/

/-- Embeds `AudioSetup.enable_monitoring`: no-op when already enabled or when the
monitor sink / default sink are not configured; otherwise mute the monitor
sink, connect it to the default output, fade it 0→100 and set the flag. -/
def enable_monitoring (env : Env) (st : AudioState) : AudioState × List Event :=
  if st.monitoring_enabled then (st, [])
  else if !truthy st.monitor_sink_name || !truthy st.default_sink then (st, [])
  else
    let m := st.monitor_sink_name.getD []
    let d := st.default_sink.getD []
    let r := connect_source_to_sink env st m d
    ({ r.1 with monitoring_enabled := true },
      .setSinkVolume m 0 :: (r.2.1 ++ fade_sink_only m 0 100 SINK_FADE_STEPS))

/-- The condition under which `disable_monitoring` removes a ledgered link:
monitor-sink name a substring of the output port, and the (truthy) default
sink a substring of the input port, case-insensitively.  The
`is_monitor_link` tag plays no role. -/
def disableMatches (m : Str) (dflt : Option Str) (l : Link) : Bool :=
  strContains (lowerStr m) (lowerStr l.1) && truthy dflt &&
    strContains (lowerStr (dflt.getD [])) (lowerStr l.2)

/-- The removal loop of `disable_monitoring`: iterate a snapshot of the
ledger; unlink every matching pair and `remove` it (first occurrence) from
the live list. -/
def disableLoop (m : Str) (dflt : Option Str) :
    List Link → List Link → List Link × List Event
  | [], links => (links, [])
  | l :: rest, links =>
    if disableMatches m dflt l then
      let r := disableLoop m dflt rest (links.erase l)
      (r.1, .pwUnlink l.1 l.2 :: r.2)
    else disableLoop m dflt rest links

/-- Embeds `AudioSetup.disable_monitoring`: no-op when disabled or no monitor sink;
otherwise fade the monitor sink 100→0, then remove the matching ledgered
links, then clear the flag. -/
def disable_monitoring (st : AudioState) : AudioState × List Event :=
  if !st.monitoring_enabled then (st, [])
  else if !truthy st.monitor_sink_name then (st, [])
  else
    let m := st.monitor_sink_name.getD []
    let r := disableLoop m st.default_sink st.created_links st.created_links
    ({ st with created_links := r.1, monitoring_enabled := false },
      fade_sink_only m 100 0 SINK_FADE_STEPS ++ r.2)

/-- Embeds `AudioSetup.toggle_monitoring`: dispatch, then return the stored flag. -/
def toggle_monitoring (env : Env) (st : AudioState) :
    AudioState × List Event × Bool :=
  if st.monitoring_enabled then
    let r := disable_monitoring st
    (r.1, r.2, r.1.monitoring_enabled)
  else
    let r := enable_monitoring env st
    (r.1, r.2, r.1.monitoring_enabled)

/-! ### Cleanup. -/

/-- Embeds `AudioSetup.remove_all_links`: unlink every ledgered pair, then clear. -/
def remove_all_links (st : AudioState) : AudioState × List Event :=
  ({ st with created_links := [] },
    st.created_links.map fun l => Event.pwUnlink l.1 l.2)

/-- Embeds `AudioSetup.cleanup`: fade the monitor sink down when monitoring, fade
everything managed down, remove all ledgered links, stop scrcpy, unload the
owned sink modules, and clear the managed state. -/
def cleanup (st : AudioState) : AudioState × List Event :=
  let tr1 :=
    if st.monitoring_enabled && truthy st.monitor_sink_name then
      fade_sink_only (st.monitor_sink_name.getD []) 100 0 SINK_FADE_STEPS
    else []
  let tr2 :=
    if !st.managed_sources.isEmpty || truthy st.virtual_sink_name then
      fade_out st
    else []
  let r := remove_all_links st
  let trS := if st.scrcpy_running then [Event.stopScrcpy] else []
  let trM :=
    (match st.monitor_sink_id with
      | some i => [Event.unloadModule i]
      | none => []) ++
    (match st.virtual_sink_id with
      | some i => [Event.unloadModule i]
      | none => [])
  ({ r.1 with
      managed_sources := []
      virtual_sink_name := none
      monitor_sink_name := none
      monitoring_enabled := false
      virtual_sink_id := none
      monitor_sink_id := none
      scrcpy_running := false },
    tr1 ++ tr2 ++ r.2 ++ trS ++ trM)

/-! ### Virtual sink lifecycle. -/

/-- The server state `create_virtual_sink` interacts with: the names of the
existing sinks, and the outcome of `pactl load-module module-null-sink`
(`none` models the raised exception; `some out` carries the module id when
the stdout was all digits, `some none` otherwise). -/
structure SinkWorld where
  sinks : List Str
  loadResult : Str → Option (Option Nat)

/-- Embeds `AudioSetup.create_virtual_sink`: reuse an existing sink of that name
with an unowned handle; otherwise load `module-null-sink`, which makes a
sink of that name exist, and return the parsed module id. -/
def create_virtual_sink (w : SinkWorld) (name : Str) :
    (Option Str × Option Nat) × SinkWorld :=
  if name ∈ w.sinks then ((some name, none), w)
  else
    match w.loadResult name with
    | none => ((none, none), w)
    | some mid => ((some name, mid), { w with sinks := w.sinks ++ [name] })

/-! ### Claim C1: the channel-matching rule across the three connectors. -/

theorem classifyChan_beq_mono (ch : Str) :
    (classifyChan ch == Chan.mono) = chMono ch := by
  cases hm : chMono ch
  · have : classifyChan ch ≠ .mono := fun hc =>
      by rw [classifyChan_eq_mono_iff] at hc; simp_all
    simp [this]
  · have : classifyChan ch = .mono := classifyChan_eq_mono_iff.mpr hm
    simp [this]

theorem classifyChan_beq_left (ch : Str) :
    (classifyChan ch == Chan.left) = chLeft ch := by
  cases hl : chLeft ch
  · have : classifyChan ch ≠ .left := fun hc =>
      by rw [classifyChan_eq_left_iff] at hc; simp_all
    simp [this]
  · have : classifyChan ch = .left := classifyChan_eq_left_iff.mpr hl
    simp [this]

theorem classifyChan_beq_right (ch : Str) :
    (classifyChan ch == Chan.right) = chRight ch := by
  cases hr : chRight ch
  · have : classifyChan ch ≠ .right := fun hc =>
      by rw [classifyChan_eq_right_iff] at hc; simp_all
    simp [this]
  · have : classifyChan ch = .right := classifyChan_eq_right_iff.mpr hr
    simp [this]

/-- C1 (counterexample). The claim asserts the Mono/Left/Right rule for all
three connectors.  `connect_to_virtual_sink` (the scrcpy-to-mix path) omits
the input-Mono disjunct: for an `FL` output and a `MONO` input the spec rule
connects, the code does not. -/
theorem c1_rule_counterexample :
    specConnectRule "scrcpy:capture_FL".data "record_mix:playback_MONO".data
        = true ∧
      shouldConnectToVirtualSink "scrcpy:capture_FL".data
        "record_mix:playback_MONO".data = false := by
  constructor
  · decide
  · decide

/-- C1 (amended): the claimed iff-rule holds verbatim for
`connect_source_to_sink` (capture-device-to-mix, and the mix → monitor →
output chains of `setup_recording`); `connect_to_virtual_sink`
(scrcpy-to-mix) instead connects iff the output is Mono or both sides are
Left or both are Right — input-Mono alone does not connect; and
`connect_virtual_sink_to_output` ignores the classification entirely and
connects iff the two ports' after-last-underscore tags are equal. -/
theorem c1_rule_amended (outp inp : Str) :
    (shouldConnectSourceToSink outp inp = specConnectRule outp inp) ∧
      (shouldConnectToVirtualSink outp inp
        = (classifyChan (chanTag outp) == Chan.mono ||
            (classifyChan (chanTag outp) == Chan.left &&
              classifyChan (chanTag inp) == Chan.left) ||
            (classifyChan (chanTag outp) == Chan.right &&
              classifyChan (chanTag inp) == Chan.right))) ∧
      (shouldConnectVirtualSinkToOutput outp inp = true ↔
        underscoreTag outp = underscoreTag inp) := by
  refine ⟨?_, ?_, ?_⟩
  · unfold shouldConnectSourceToSink specConnectRule
    simp only [classifyChan_beq_mono, classifyChan_beq_left,
      classifyChan_beq_right]
  · unfold shouldConnectToVirtualSink
    simp only [classifyChan_beq_mono, classifyChan_beq_left,
      classifyChan_beq_right]
  · unfold shouldConnectVirtualSinkToOutput
    exact beq_iff_eq

/-! ### Claim C2: "monitor" suffixes are never classified Mono. -/

/-- C2: for every port, the mono classification of its channel tag holds iff
the tag is exactly `MONO` or ends with the underscore-delimited suffix
`_MONO`; consequently a tag carrying a `MONITOR` suffix is never classified
Mono. -/
theorem c2_monitor_never_mono (port : Str) :
    (chMono (chanTag port) = true ↔
      chanTag port = "MONO".data ∨ "_MONO".data <:+ chanTag port) ∧
      ("MONITOR".data <:+ chanTag port → chMono (chanTag port) = false) := by
  constructor
  · unfold chMono strEndsWith
    rw [Bool.or_eq_true_iff, isSuffixOf_eq_true_iff, beq_iff_eq, or_comm]
  · intro h
    cases hm : chMono (chanTag port)
    · rfl
    · exfalso
      have h1 : (chanTag port).getLast? = some 'R' := by
        rw [getLast?_of_suffix h (by decide)]
        rfl
      have h2 := chMono_getLast hm
      rw [h1] at h2
      simp at h2

/-- C2 witness: the monitor port `record_mix:monitor` has channel tag
`MONITOR`, which is not classified Mono. -/
theorem c2_monitor_never_mono_witness :
    chMono (chanTag "record_mix:monitor".data) = false :=
  (c2_monitor_never_mono "record_mix:monitor".data).2 (by decide)

/-! ### Claim C5: the ledger records a pair iff the primitive succeeds. -/

/-- C5: `link_ports` issues the `pw-link` primitive exactly once, returns the
primitive's verdict, leaves the ledger (both partitions) untouched on
failure, and appends the pair to the ledger — and to the monitor-tagged
list exactly when `is_monitor_link` — on success. -/
theorem c5_link_ports_ledger (env : Env) (st : AudioState)
    (outPort inPort : Str) (is_monitor_link : Bool) :
    ((link_ports env st outPort inPort is_monitor_link).2.1
        = [Event.pwLink outPort inPort]) ∧
      ((link_ports env st outPort inPort is_monitor_link).2.2
        = env.linkOk outPort inPort) ∧
      (env.linkOk outPort inPort = false →
        (link_ports env st outPort inPort is_monitor_link).1 = st) ∧
      (env.linkOk outPort inPort = true →
        (link_ports env st outPort inPort is_monitor_link).1.created_links
            = st.created_links ++ [(outPort, inPort)] ∧
          (link_ports env st outPort inPort is_monitor_link).1.monitor_links
            = (if is_monitor_link then
                st.monitor_links ++ [(outPort, inPort)]
              else st.monitor_links)) := by
  unfold link_ports
  cases h : env.linkOk outPort inPort <;> simp

/-- C5 witness: a failing transport (an environment whose `pw-link` always
fails) leaves a concrete ledger untouched and returns `False`. -/
theorem c5_link_ports_ledger_witness :
    (link_ports ⟨[], [], fun _ _ => false⟩
        ⟨[], [], [], none, none, none, false, none, none, false⟩
        "a:out_FL".data "b:in_FL".data false).1
      = ⟨[], [], [], none, none, none, false, none, none, false⟩ :=
  (c5_link_ports_ledger ⟨[], [], fun _ _ => false⟩
    ⟨[], [], [], none, none, none, false, none, none, false⟩
    "a:out_FL".data "b:in_FL".data false).2.2.1 rfl

/-! ### Claim C9: `create_virtual_sink` is idempotent per name. -/

/-- C9: when no sink named `name` exists and loading the null-sink module
succeeds with module id `mid`, the first `create_virtual_sink` returns the
name with the owned handle `mid`, and a second call with the same name
returns the same name with no handle and changes nothing. -/
theorem c9_create_virtual_sink_idempotent (w : SinkWorld) (name : Str)
    (mid : Nat) (habsent : name ∉ w.sinks)
    (hload : w.loadResult name = some (some mid)) :
    (create_virtual_sink w name).1 = (some name, some mid) ∧
      create_virtual_sink (create_virtual_sink w name).2 name
        = ((some name, none), (create_virtual_sink w name).2) := by
  unfold create_virtual_sink
  simp only [habsent, if_neg, hload]
  simp [habsent]

/-- C9 witness: concrete world with no sinks and a loader that returns
module id 42 for every request. -/
theorem c9_create_virtual_sink_idempotent_witness :
    (create_virtual_sink ⟨[], fun _ => some (some 42)⟩ "record_mix".data).1
        = (some "record_mix".data, some 42) ∧
      create_virtual_sink
          (create_virtual_sink ⟨[], fun _ => some (some 42)⟩
            "record_mix".data).2 "record_mix".data
        = ((some "record_mix".data, none),
            (create_virtual_sink ⟨[], fun _ => some (some 42)⟩
              "record_mix".data).2) :=
  c9_create_virtual_sink_idempotent ⟨[], fun _ => some (some 42)⟩
    "record_mix".data 42 (by decide) rfl

/-! ### Claim C7: enable/disable are guarded no-ops. -/

/-- C7: `enable_monitoring` is a no-op (state and trace) when already
enabled or when the monitor sink or default output is not configured; from
Disabled with both configured it sets the state Enabled, so an immediately
repeated call is a no-op — the connect/fade sequence runs exactly once; and
`disable_monitoring` is a no-op when already Disabled. -/
theorem c7_enable_disable_guards (env : Env) (st : AudioState) :
    (st.monitoring_enabled = true → enable_monitoring env st = (st, [])) ∧
      ((truthy st.monitor_sink_name = false ∨ truthy st.default_sink = false) →
        enable_monitoring env st = (st, [])) ∧
      (st.monitoring_enabled = false → truthy st.monitor_sink_name = true →
        truthy st.default_sink = true →
        (enable_monitoring env st).1.monitoring_enabled = true ∧
          enable_monitoring env (enable_monitoring env st).1
            = ((enable_monitoring env st).1, [])) ∧
      (st.monitoring_enabled = false → disable_monitoring st = (st, [])) := by
  have hnoop : ∀ s : AudioState, s.monitoring_enabled = true →
      enable_monitoring env s = (s, []) := by
    intro s h
    unfold enable_monitoring
    simp [h]
  refine ⟨hnoop st, ?_, ?_, ?_⟩
  · intro h
    cases hm : st.monitoring_enabled
    · unfold enable_monitoring
      rcases h with h | h <;> simp [h]
    · exact hnoop st hm
  · intro hmon hm hd
    have hstate : (enable_monitoring env st).1.monitoring_enabled = true := by
      unfold enable_monitoring
      simp [hmon, hm, hd]
    exact ⟨hstate, hnoop _ hstate⟩
  · intro h
    unfold disable_monitoring
    simp [h]

/-- C7 witness: from Disabled with a monitor sink and a default output
configured, enabling twice flips the flag once and the second call is a
no-op; and disabling while Disabled is a no-op. -/
theorem c7_enable_disable_guards_witness :
    (enable_monitoring ⟨[], [], fun _ _ => true⟩
        ⟨[], [], [], none, some "monitor_mix".data,
          some "alsa_output.usb".data, false, none, none, false⟩).1.monitoring_enabled
        = true ∧
      enable_monitoring ⟨[], [], fun _ _ => true⟩
          (enable_monitoring ⟨[], [], fun _ _ => true⟩
            ⟨[], [], [], none, some "monitor_mix".data,
              some "alsa_output.usb".data, false, none, none, false⟩).1
        = ((enable_monitoring ⟨[], [], fun _ _ => true⟩
            ⟨[], [], [], none, some "monitor_mix".data,
              some "alsa_output.usb".data, false, none, none, false⟩).1, []) :=
  (c7_enable_disable_guards ⟨[], [], fun _ _ => true⟩
    ⟨[], [], [], none, some "monitor_mix".data,
      some "alsa_output.usb".data, false, none, none, false⟩).2.2.1
    rfl (by decide) (by decide)

/-! ### Claim C10: `toggle_monitoring` returns the stored flag. -/

/-- C10: `toggle_monitoring` returns the monitoring flag as stored after the
dispatched call, not the negation of the prior state; in particular from
Disabled with no configured monitor sink it changes nothing, issues no
command, and returns `False`. -/
theorem c10_toggle_returns_stored_flag (env : Env) (st : AudioState) :
    ((toggle_monitoring env st).2.2
        = (toggle_monitoring env st).1.monitoring_enabled) ∧
      (st.monitoring_enabled = false →
        (truthy st.monitor_sink_name = false ∨ truthy st.default_sink = false) →
        toggle_monitoring env st = (st, [], false)) := by
  constructor
  · unfold toggle_monitoring
    cases h : st.monitoring_enabled <;> simp
  · intro hmon hpre
    unfold toggle_monitoring
    have henable : enable_monitoring env st = (st, []) := by
      unfold enable_monitoring
      rcases hpre with h | h <;> simp [hmon, h]
    simp [hmon, henable]

/-- C10 witness: Disabled with no monitor sink configured — toggling
performs nothing and returns `False`, equal to the prior state. -/
theorem c10_toggle_returns_stored_flag_witness :
    toggle_monitoring ⟨[], [], fun _ _ => true⟩
        ⟨[], [], [], none, none, some "alsa_output.usb".data,
          false, none, none, false⟩
      = (⟨[], [], [], none, none, some "alsa_output.usb".data,
          false, none, none, false⟩, [], false) :=
  (c10_toggle_returns_stored_flag ⟨[], [], fun _ _ => true⟩
    ⟨[], [], [], none, none, some "alsa_output.usb".data,
      false, none, none, false⟩).2 rfl (Or.inl rfl)

/-! ### Claim C3: which links `disable_monitoring` removes. -/

theorem disableLoop_spec (m : Str) (dflt : Option Str) :
    ∀ (snap kept : List Link),
      (∀ x ∈ kept, disableMatches m dflt x = false) →
      disableLoop m dflt snap (kept ++ snap)
        = (kept ++ snap.filter (fun l => !disableMatches m dflt l),
            (snap.filter (disableMatches m dflt)).map
              (fun l => Event.pwUnlink l.1 l.2)) := by
  intro snap
  induction snap with
  | nil => intro kept _; simp [disableLoop]
  | cons l rest ih =>
    intro kept hkept
    unfold disableLoop
    cases hl : disableMatches m dflt l
    · simp only [Bool.false_eq_true, if_false]
      have : kept ++ l :: rest = (kept ++ [l]) ++ rest := by simp
      rw [this, ih (kept ++ [l]) ?_]
      · simp [List.filter_cons, hl]
      · intro x hx
        rcases List.mem_append.mp hx with hx | hx
        · exact hkept x hx
        · simp only [List.mem_singleton] at hx
          subst hx
          exact hl
    · simp only [if_true]
      have hnotin : l ∉ kept := fun hmem => by
        have := hkept l hmem
        rw [hl] at this
        cases this
      have herase : (kept ++ l :: rest).erase l = kept ++ rest := by
        rw [List.erase_append_right _ hnotin, List.erase_cons_head]
      rw [herase, ih kept hkept]
      simp [List.filter_cons, hl]

/-- C3 (counterexample). The claim says `disable()` removes exactly the
links *tagged* `is_monitor_link` whose endpoints match.  In this state the
one ledgered link matches by endpoints but carries no monitor tag
(`monitor_links` is empty) — the code still removes it, and a genuinely
tagged link would stay in the monitor-tagged list. -/
theorem c3_disable_removal_counterexample :
    (disable_monitoring
        ⟨[("monitor_mix:monitor_FL".data, "alsa_output.usb:playback_FL".data)],
          [], [], none, some "monitor_mix".data,
          some "alsa_output.usb".data, true, none, none,
          false⟩).1.created_links = [] := by
  decide

/-- C3 (amended): when monitoring is Enabled and a monitor sink is
configured, `disable_monitoring` removes from the general ledger exactly
the links whose output port contains the monitor-sink name and whose input
port contains the (truthy) default output, case-insensitively — the
`is_monitor_link` tag is not consulted and the monitor-tagged list is left
unchanged — and then sets the state Disabled. -/
theorem c3_disable_removal_amended (st : AudioState)
    (hmon : st.monitoring_enabled = true)
    (hname : truthy st.monitor_sink_name = true) :
    (disable_monitoring st).1.created_links
        = st.created_links.filter
            (fun l => !disableMatches (st.monitor_sink_name.getD [])
              st.default_sink l) ∧
      (disable_monitoring st).1.monitor_links = st.monitor_links ∧
      (disable_monitoring st).1.monitoring_enabled = false := by
  unfold disable_monitoring
  rw [hmon, hname]
  simp only [Bool.not_true, Bool.false_eq_true, if_false]
  have hspec := disableLoop_spec (st.monitor_sink_name.getD [])
    st.default_sink st.created_links [] (by intro x hx; cases hx)
  simp only [List.nil_append] at hspec
  rw [hspec]
  simp

/-- C3 witness: a two-link ledger where only the first link matches the
monitor path and default output; disabling removes exactly that one and
leaves the monitor-tagged list alone. -/
theorem c3_disable_removal_amended_witness :
    (disable_monitoring
        ⟨[("monitor_mix:monitor_FL".data, "alsa_output.usb:playback_FL".data),
            ("scrcpy:capture_FL".data, "record_mix:playback_FL".data)],
          [("x".data, "y".data)], [], none, some "monitor_mix".data,
          some "alsa_output.usb".data, true, none, none,
          false⟩).1.created_links
        = [("scrcpy:capture_FL".data, "record_mix:playback_FL".data)] ∧
      (disable_monitoring
        ⟨[("monitor_mix:monitor_FL".data, "alsa_output.usb:playback_FL".data),
            ("scrcpy:capture_FL".data, "record_mix:playback_FL".data)],
          [("x".data, "y".data)], [], none, some "monitor_mix".data,
          some "alsa_output.usb".data, true, none, none,
          false⟩).1.monitor_links = [("x".data, "y".data)] := by
  have h := c3_disable_removal_amended
    ⟨[("monitor_mix:monitor_FL".data, "alsa_output.usb:playback_FL".data),
        ("scrcpy:capture_FL".data, "record_mix:playback_FL".data)],
      [("x".data, "y".data)], [], none, some "monitor_mix".data,
      some "alsa_output.usb".data, true, none, none, false⟩ rfl (by decide)
  refine ⟨?_, h.2.1⟩
  rw [h.1]
  decide

/-! ### Claim C8: the fade completes before any unlink in `disable`. -/

theorem fade_sink_only_all_volume {sink : Str} {start stop : Int}
    {steps : Nat} {e : Event} (h : e ∈ fade_sink_only sink start stop steps) :
    Event.isVolumeSet e = true ∧ Event.isUnlink e = false := by
  unfold fade_sink_only at h
  obtain ⟨k, _, rfl⟩ := List.mem_map.mp h
  exact ⟨rfl, rfl⟩

theorem disableLoop_all_unlink (m : Str) (dflt : Option Str) :
    ∀ (snap links : List Link) (e : Event),
      e ∈ (disableLoop m dflt snap links).2 →
      Event.isUnlink e = true ∧ Event.isVolumeSet e = false := by
  intro snap
  induction snap with
  | nil => intro links e h; cases h
  | cons l rest ih =>
    intro links e h
    unfold disableLoop at h
    cases hl : disableMatches m dflt l <;> rw [hl] at h
    · exact ih links e h
    · simp only [if_true] at h
      rcases List.mem_cons.mp h with rfl | h
      · exact ⟨rfl, rfl⟩
      · exact ih (links.erase l) e h

theorem append_volume_before_unlink (A B : List Event)
    (hA : ∀ e ∈ A, Event.isUnlink e = false)
    (hB : ∀ e ∈ B, Event.isVolumeSet e = false) :
    ∀ i j (hi : i < (A ++ B).length) (hj : j < (A ++ B).length),
      (A ++ B)[i].isVolumeSet = true → (A ++ B)[j].isUnlink = true →
      i < j := by
  intro i j hi hj hvol hunl
  have hiA : i < A.length := by
    by_contra hge
    push_neg at hge
    rw [List.getElem_append_right hge] at hvol
    have : (A ++ B)[i] ∈ B := by
      rw [List.getElem_append_right hge]
      exact List.getElem_mem _
    have := hB ((A ++ B)[i]) this
    rw [List.getElem_append_right hge] at this
    rw [this] at hvol
    cases hvol
  have hjB : A.length ≤ j := by
    by_contra hlt
    push_neg at hlt
    rw [List.getElem_append_left hlt] at hunl
    have := hA (A[j]) (List.getElem_mem _)
    rw [this] at hunl
    cases hunl
  exact lt_of_lt_of_le hiA hjB

/-- C8: in every execution of `disable_monitoring` that passes its guards,
the full 100→0 fade of the monitor sink is a prefix of the issued command
trace, and every volume-set command in the trace precedes every unlink
command — no monitor-link removal ever precedes a fade step. -/
theorem c8_fade_completes_before_unlink (st : AudioState)
    (hmon : st.monitoring_enabled = true)
    (hname : truthy st.monitor_sink_name = true) :
    (fade_sink_only (st.monitor_sink_name.getD []) 100 0 SINK_FADE_STEPS
        <+: (disable_monitoring st).2) ∧
      ∀ i j (hi : i < (disable_monitoring st).2.length)
        (hj : j < (disable_monitoring st).2.length),
        ((disable_monitoring st).2)[i].isVolumeSet = true →
        ((disable_monitoring st).2)[j].isUnlink = true → i < j := by
  have htr : (disable_monitoring st).2
      = fade_sink_only (st.monitor_sink_name.getD []) 100 0 SINK_FADE_STEPS
          ++ (disableLoop (st.monitor_sink_name.getD []) st.default_sink
              st.created_links st.created_links).2 := by
    unfold disable_monitoring
    rw [hmon, hname]
    rfl
  rw [htr]
  constructor
  · exact ⟨_, rfl⟩
  · exact append_volume_before_unlink _ _
      (fun e he => (fade_sink_only_all_volume he).2)
      (fun e he => (disableLoop_all_unlink _ _ _ _ e he).2)

/-- C8 witness: a concrete Enabled state with one matching ledgered link;
the whole fade trace is a prefix of the command trace `disable` issues. -/
theorem c8_fade_completes_before_unlink_witness :
    fade_sink_only "monitor_mix".data 100 0 SINK_FADE_STEPS
      <+: (disable_monitoring
        ⟨[("monitor_mix:monitor_FL".data, "alsa_output.usb:playback_FL".data)],
          [], [], none, some "monitor_mix".data,
          some "alsa_output.usb".data, true, none, none, false⟩).2 :=
  (c8_fade_completes_before_unlink
    ⟨[("monitor_mix:monitor_FL".data, "alsa_output.usb:playback_FL".data)],
      [], [], none, some "monitor_mix".data,
      some "alsa_output.usb".data, true, none, none, false⟩
    rfl (by decide)).1

/-! ### Claim C4: `cleanup` and the empty state. -/

/-- C4 (counterexample). The claim says cleanup empties the monitor-tagged
partition of the ledger too; in fact `cleanup` never clears
`_monitor_links`: from a state whose only content is one monitor-tagged
entry, the tagged list survives cleanup. -/
theorem c4_cleanup_counterexample :
    (cleanup
        ⟨[], [("monitor_mix:monitor_FL".data, "alsa_output.usb:playback_FL".data)],
          [], none, none, none, false, none, none, false⟩).1.monitor_links
      ≠ [] := by
  decide

/-- C4 (amended): `cleanup` is safe on any (even partially-initialized)
state: afterwards the general ledger is empty, no sources are managed, the
sink names and owned module handles are cleared and monitoring is Disabled
— but the monitor-tagged list is carried over unchanged — and a second
`cleanup` returns the state unchanged and issues no command at all. -/
theorem c4_cleanup_idempotent_empty (st : AudioState) :
    (cleanup st).1.created_links = [] ∧
      (cleanup st).1.managed_sources = [] ∧
      (cleanup st).1.virtual_sink_name = none ∧
      (cleanup st).1.monitor_sink_name = none ∧
      (cleanup st).1.monitoring_enabled = false ∧
      (cleanup st).1.virtual_sink_id = none ∧
      (cleanup st).1.monitor_sink_id = none ∧
      (cleanup st).1.scrcpy_running = false ∧
      (cleanup st).1.monitor_links = st.monitor_links ∧
      cleanup (cleanup st).1 = ((cleanup st).1, []) := by
  exact ⟨rfl, rfl, rfl, rfl, rfl, rfl, rfl, rfl, rfl, rfl⟩

/-! ### Claim C6: the fade ramp formula. -/

theorem pyTruncDiv_mul_cancel (e : Int) (n : Nat) (hn : 0 < n) :
    pyTruncDiv (e * n) n = e := by
  unfold pyTruncDiv
  rcases le_or_lt 0 e with he | he
  · rw [if_pos (mul_nonneg he (Int.natCast_nonneg n))]
    obtain ⟨a, rfl⟩ := Int.eq_ofNat_of_zero_le he
    rw [show ((a : Int) * n).toNat = a * n from by
      rw [← Int.natCast_mul, Int.toNat_natCast]]
    rw [Nat.mul_div_cancel a hn]
  · have hneg : e * n < 0 :=
      mul_neg_of_neg_of_pos he (by exact_mod_cast hn)
    rw [if_neg (not_le.mpr hneg)]
    have h2 : (0 : Int) ≤ -e := by omega
    obtain ⟨a, ha⟩ := Int.eq_ofNat_of_zero_le h2
    rw [show -(e * (n : Int)) = (-e) * n from by ring, ha]
    rw [show ((a : Int) * n).toNat = a * n from by
      rw [← Int.natCast_mul, Int.toNat_natCast]]
    rw [Nat.mul_div_cancel a hn]
    omega

theorem fadeVolume_eq_floor (s e : Int) (k n : Nat) (hn : 0 < n)
    (hnn : 0 ≤ s * n + (e - s) * k) :
    fadeVolume s e k n = ⌊(s : ℚ) + ((e : ℚ) - s) * k / n⌋ := by
  unfold fadeVolume pyTruncDiv
  rw [if_pos hnn]
  have hcast : (s : ℚ) + ((e : ℚ) - s) * k / n
      = ((s * n + (e - s) * k : Int) : ℚ) / (n : ℚ) := by
    have hn0 : (n : ℚ) ≠ 0 := by
      exact_mod_cast Nat.pos_iff_ne_zero.mp hn
    push_cast
    field_simp
  rw [hcast]
  obtain ⟨a, ha⟩ := Int.eq_ofNat_of_zero_le hnn
  rw [ha, Int.toNat_natCast]
  rw [show ((a : Int) : ℚ) = (a : ℚ) from by push_cast; rfl]
  rw [Rat.floor_natCast_div_natCast]
  exact_mod_cast (Int.natCast_div a n).symm

/-- C6 (counterexample). The claim says the volume at step `k` is the
linear value *rounded* to an integer percent.  The code truncates with
Python `int(...)`: with 3 steps (e.g. `_fade_sink_only` at duration 0.08s)
the value at step 2 of a 0→100 ramp is `int(66.67) = 66`, while rounding
gives 67. -/
theorem c6_fade_counterexample :
    fadeVolume 0 100 2 3 = 66 ∧
      round ((0 : ℚ) + ((100 : ℚ) - 0) * 2 / 3) = 67 := by
  constructor
  · decide
  · rw [show ((0 : ℚ) + ((100 : ℚ) - 0) * 2 / 3) = 200 / 3 from by norm_num,
      round_eq,
      show (200 : ℚ) / 3 + 1 / 2 = 403 / 6 from by norm_num,
      Int.floor_eq_iff]
    constructor <;> norm_num

/-- C6 (amended): at step `k` of an `n`-step ramp the volume set is
`from + (to - from) * (k / n)` truncated toward zero (the floor, for the
nonnegative values that occur); the final step sets exactly the end value
(100 for a 0→100 ramp); and the multi-entity `fade_in` issues a volume-set
command to every managed source — and to the truthy virtual sink — at every
step. -/
theorem c6_fade_amended (s e : Int) (k n : Nat) (st : AudioState)
    (src : Str) :
    (0 < n → 0 ≤ s * n + (e - s) * k →
      fadeVolume s e k n = ⌊(s : ℚ) + ((e : ℚ) - s) * k / n⌋) ∧
      (0 < n → fadeVolume s e n n = e) ∧
      (src ∈ st.managed_sources → k ≤ FADE_STEPS →
        Event.setSourceVolume src (fadeVolume 0 100 k FADE_STEPS)
          ∈ fade_in st) ∧
      (truthy st.virtual_sink_name = true → k ≤ FADE_STEPS →
        Event.setSinkVolume (st.virtual_sink_name.getD [])
          (fadeVolume 0 100 k FADE_STEPS) ∈ fade_in st) ∧
      fadeVolume 0 100 FADE_STEPS FADE_STEPS = 100 := by
  refine ⟨fadeVolume_eq_floor s e k n, ?_, ?_, ?_, by decide⟩
  · intro hn
    unfold fadeVolume
    rw [show s * n + (e - s) * n = e * n from by ring]
    exact pyTruncDiv_mul_cancel e n hn
  · intro hsrc hk
    unfold fade_in
    rw [List.mem_flatMap]
    refine ⟨k, List.mem_range.mpr (by omega), ?_⟩
    unfold fadeStepEvents
    exact List.mem_append.mpr (Or.inl (List.mem_map.mpr ⟨src, hsrc, rfl⟩))
  · intro hvs hk
    unfold fade_in
    rw [List.mem_flatMap]
    refine ⟨k, List.mem_range.mpr (by omega), ?_⟩
    unfold fadeStepEvents
    rw [hvs, if_pos rfl]
    exact List.mem_append.mpr (Or.inr (List.mem_singleton.mpr rfl))

/-- C6 witness: step 10 of the default 20-step 0→100 ramp is the floor of
the linear value, the final step is exactly 100, and a concrete managed
source receives the step-10 volume-set command. -/
theorem c6_fade_amended_witness :
    fadeVolume 0 100 10 20 = ⌊(0 : ℚ) + ((100 : ℚ) - 0) * 10 / 20⌋ ∧
      fadeVolume 0 100 20 20 = 100 ∧
      Event.setSourceVolume "alsa_input.usb".data (fadeVolume 0 100 10 20)
        ∈ fade_in ⟨[], [], ["alsa_input.usb".data], none, none, none,
            false, none, none, false⟩ := by
  have h := c6_fade_amended 0 100 10 20
    ⟨[], [], ["alsa_input.usb".data], none, none, none, false, none,
      none, false⟩ "alsa_input.usb".data
  exact ⟨h.1 (by decide) (by decide), (c6_fade_amended 0 100 10 20
    ⟨[], [], ["alsa_input.usb".data], none, none, none, false, none,
      none, false⟩ "alsa_input.usb".data).2.1 (by decide),
    h.2.2.1 (by decide) (by decide)⟩
